import Mathlib

/-!
Shallow embedding of the VentureVal.Ai frontend upload-and-poll workflow
(`src/unnamed/part_011` HomePage, `src/unnamed/part_001` ProgressTracker,
`src/Frontend/src/components/weightSection/constants.js`,
`src/Frontend/src/screens/homePage/constants.js`,
`src/Frontend/src/apiService/apiService.js`,
`src/Frontend/src/screens/dashboard/dashboard.jsx`).

Machine numbers are modelled as Nat/Int/Rat; JavaScript promises as
`Except`-valued computations; the unbounded polling loop is given explicit
fuel, with `none` meaning "has not terminated within that many iterations".
-/

namespace VentureVal

/-! ### Weighting data model (weightSection/constants.js) -/

/-- The six scoring factors of `factors` / `PRESETS` in
`src/Frontend/src/components/weightSection/constants.js`. -/
inductive Factor
  | Growth
  | Market
  | Team
  | Product
  | Financials
  | Competition
  deriving DecidableEq, Fintype

/-- The fixed iteration order of the six factors (object key order of the
preset objects). -/
def factorList : List Factor :=
  [.Growth, .Market, .Team, .Product, .Financials, .Competition]

/-- A weights mapping: each factor to its integer weight (slider range 0-100). -/
abbrev Weights := Factor → ℕ

/-- Reduction `Object.values(weights).reduce((a, b) => a + b, 0)` from
`handleUpload` (src/unnamed/part_011, line 69). -/
def sumWeights (w : Weights) : ℕ :=
  (factorList.map w).sum

/-- The five preset names of `PRESETS` in weightSection/constants.js. -/
inductive PresetName
  | defaultCustom
  | earlyStageVC
  | growthEquity
  | angelInvestor
  | strategicInvestor
  deriving DecidableEq, Fintype

/-- The `PRESETS` table of `src/Frontend/src/components/weightSection/constants.js`
(lines 1-42). -/
def PRESETS : PresetName → Weights
  | .defaultCustom => fun f => match f with
      | .Growth => 25 | .Market => 20 | .Team => 20
      | .Product => 15 | .Financials => 10 | .Competition => 10
  | .earlyStageVC => fun f => match f with
      | .Team => 35 | .Market => 30 | .Product => 20
      | .Growth => 10 | .Financials => 3 | .Competition => 2
  | .growthEquity => fun f => match f with
      | .Growth => 40 | .Financials => 25 | .Market => 15
      | .Competition => 10 | .Team => 8 | .Product => 2
  | .angelInvestor => fun f => match f with
      | .Team => 30 | .Product => 25 | .Market => 20
      | .Growth => 15 | .Financials => 5 | .Competition => 5
  | .strategicInvestor => fun f => match f with
      | .Product => 35 | .Competition => 25 | .Market => 20
      | .Growth => 10 | .Team => 7 | .Financials => 3

/-- The weighting-related component state: the selected preset name and the
current weights mapping. -/
structure WeightState where
  preset : PresetName
  weights : Weights

/-- The `applyPreset` handler of `WeightsSection`
(src/Frontend/src/components/weightSection/constants.js, lines 107-110):
`setPreset(presetName); setWeights(PRESETS[presetName])`.  The previous
state is overwritten wholesale. -/
def applyPreset (_s : WeightState) (p : PresetName) : WeightState :=
  { preset := p, weights := PRESETS p }

/-! ### Upload slots (HomePage, src/unnamed/part_011) -/

/-- The four upload slot keys of the `selectedFiles` state object
(src/unnamed/part_011, lines 30-35). -/
inductive SlotKey
  | pitch_deck
  | call_transcript
  | founder_update
  | email_communication
  deriving DecidableEq, Fintype

/-- Object key order of `selectedFiles`, as iterated by `Object.entries` /
`Object.values`. -/
def slotKeys : List SlotKey :=
  [.pitch_deck, .call_transcript, .founder_update, .email_communication]

/-- The derived `isDisabled` value (src/unnamed/part_011, lines 40-42):
`uploading || Object.values(selectedFiles).every(files => files.length === 0)`.
`selectedFiles` is modelled by the number of files in each slot. -/
def isDisabled (uploading : Bool) (selectedFiles : SlotKey → ℕ) : Bool :=
  uploading || slotKeys.all (fun k => selectedFiles k == 0)

/-! ### Per-slot upload outcomes -/

/-- The environment-determined outcome of one slot's presign-and-PUT sequence
in `handleUpload` (src/unnamed/part_011, lines 76-99): the slot may be empty
(`files.length === 0` returns `null` at once), the PUT may respond with a
success status (`uploaded.ok`, yielding `resp.storage_path`), the PUT may
respond with a non-success status (yielding `null`), or the presign request or
the PUT may reject with a network error (rejecting the per-slot promise). -/
inductive UploadOutcome
  | noFile
  | putOk (path : String)
  | putFail
  | netError (e : String)
  deriving DecidableEq

/-- The settled value of one slot's async arrow function: a rejection carries
the error, a fulfilment carries `resp.storage_path` or `null`. -/
def slotResult : UploadOutcome → Except String (Option String)
  | .noFile => .ok none
  | .putOk p => .ok (some p)
  | .putFail => .ok none
  | .netError e => .error e

/-- Whether the outcome is a per-slot network error (a rejected promise). -/
def isNetError : UploadOutcome → Bool
  | .netError _ => true
  | _ => false

/-- Whether the slot's PUT succeeded and produced a storage path. -/
def isSuccess : UploadOutcome → Bool
  | .putOk _ => true
  | _ => false

/-- Successful slots contribute exactly their storage path; every other
outcome contributes `null`. -/
def okPart : UploadOutcome → Option String
  | .putOk p => some p
  | _ => none

/-- Technical side condition: a successful slot's storage path is a non-empty
string (so that JavaScript's `filter(Boolean)` keeps it). -/
def okPathNonempty : UploadOutcome → Bool
  | .putOk p => p != ""
  | _ => true

/-- The semantics of `Promise.all` over already-determined per-promise
results: if any input rejected the join rejects (with the first rejection in
list order as its reason), otherwise it fulfils with the list of values. -/
def promiseAll {ε α : Type} : List (Except ε α) → Except ε (List α)
  | [] => .ok []
  | x :: rest =>
    match x with
    | .error e => .error e
    | .ok a =>
      match promiseAll rest with
      | .ok as => .ok (a :: as)
      | .error e => .error e

/-- The storage paths of all successful slots, in slot order. -/
def successPaths (env : SlotKey → UploadOutcome) : List String :=
  slotKeys.filterMap (fun k => okPart (env k))

/-! ### The submit operation `handleUpload` -/

/-- The two boolean screen-gating flags of HomePage
(src/unnamed/part_011, lines 36-37). -/
structure HomeState where
  uploading : Bool
  showAnalyzing : Bool
  deriving DecidableEq

/-- The `weighting_config` object of the `/start` request body
(src/unnamed/part_011, lines 109-112). -/
structure WeightingConfig where
  profile_name : PresetName
  weights : Factor → ℚ

/-- The `/start` request body (src/unnamed/part_011, lines 107-113). -/
structure SubmissionPayload where
  storage_paths : List String
  weighting_config : WeightingConfig

/-- The `normalizedWeights` computation (src/unnamed/part_011, lines 103-105):
each integer weight divided by 100. -/
def normalizedWeights (w : Weights) : Factor → ℚ :=
  fun f => (w f : ℚ) / 100

/-- Observable effects of one run of `handleUpload` up to the submission call:
final flag state, whether the blocking alert fired, which slots had a presign
request issued, the submitted payload (if any), and the uncaught rejection
(if any). -/
structure UploadRun where
  finalState : HomeState
  alerted : Bool
  presignCalls : List SlotKey
  submission : Option SubmissionPayload
  err : Option String

/-- The `handleUpload` handler of HomePage (src/unnamed/part_011, lines
68-113), up to and including the `startAnalysis` submission.  If the weights
do not sum to 100 it alerts and returns with no side effects.  Otherwise it
sets `uploading`, runs all per-slot uploads through `Promise.all`
(a rejection of any slot rejects the join, so the uncaught error aborts the
rest of the handler with `uploading` still true), and on a fulfilled join it
clears `uploading`, sets `showAnalyzing`, keeps the truthy paths
(`results.filter(Boolean)`) and submits them with the normalized weights. -/
def handleUpload (w : Weights) (preset : PresetName)
    (env : SlotKey → UploadOutcome) (s : HomeState) : UploadRun :=
  if sumWeights w ≠ 100 then
    { finalState := s, alerted := true, presignCalls := [],
      submission := none, err := none }
  else
    let s1 : HomeState := { s with uploading := true }
    let calls := slotKeys.filter (fun k =>
      match env k with | .noFile => false | _ => true)
    match promiseAll (slotKeys.map (fun k => slotResult (env k))) with
    | .error e =>
      { finalState := s1, alerted := false, presignCalls := calls,
        submission := none, err := some e }
    | .ok results =>
      let s2 : HomeState := { s1 with uploading := false, showAnalyzing := true }
      let storagePaths := (results.filterMap id).filter (fun p => p != "")
      { finalState := s2, alerted := false, presignCalls := calls,
        submission := some
          { storage_paths := storagePaths,
            weighting_config :=
              { profile_name := preset, weights := normalizedWeights w } },
        err := none }

/-! ### Status polling `pollAnalysisStatus` -/

/-- The response object of `getAnalysisData` (`GET /{analysis_id}`): the
integer progress percentage plus the rest of the payload, kept opaque. -/
structure AnalysisResp where
  progress : ℕ
  payload : String
  deriving DecidableEq

/-- The `pollAnalysisStatus` loop of HomePage (src/unnamed/part_011, lines
48-63), with explicit fuel.  `responses k` is the settled result of the
`(k+1)`-th fetch.  The loop fetches, records the progress, returns the full
response if its progress is 100, otherwise sleeps `interval` ms and repeats;
a fetch rejection is rethrown.  The result pairs the outcome with the total
milliseconds slept (`interval` per completed non-terminal iteration);
`none` means the loop has not terminated within `fuel` iterations. -/
def pollRun (responses : ℕ → Except String AnalysisResp) (interval : ℕ) :
    ℕ → ℕ → Option (Except String AnalysisResp × ℕ)
  | _, 0 => none
  | k, fuel + 1 =>
    match responses k with
    | .error e => some (.error e, interval * k)
    | .ok r =>
      if r.progress = 100 then some (.ok r, interval * k)
      else pollRun responses interval (k + 1) fuel

/-! ### Full orchestrator run (upload, submit, poll, navigate) -/

/-- A call to react-router's `navigate`: the target route together with the
optional navigation state `{ finalAnalysis, analysisId }` that the dashboard
screen reads.  The HomePage code calls `navigate("/dashboard")`, passing no
state. -/
structure NavCall where
  route : String
  state : Option (AnalysisResp × String)
  deriving DecidableEq

/-- Observable effects of a full `handleUpload` run, continuing through
`startAnalysis`, `pollAnalysisStatus` and the final `navigate` and
`console.log` (src/unnamed/part_011, lines 68-120). -/
structure FullRun where
  finalState : HomeState
  alerted : Bool
  submission : Option SubmissionPayload
  navCall : Option NavCall
  loggedFinal : Option AnalysisResp
  err : Option String

/-- The full `handleUpload` handler (src/unnamed/part_011, lines 68-120):
validation, parallel uploads, submission, polling with `interval = 5000`,
then `navigate("/dashboard")` (no state passed) and
`console.log("Final Analysis Result:", finalAnalysis)`.  `responses` drives
the poll loop and `fuel` bounds the modelled iterations; a poll rejection
(or the join rejection) leaves the corresponding error uncaught. -/
def handleUploadFull (w : Weights) (preset : PresetName)
    (env : SlotKey → UploadOutcome)
    (responses : ℕ → Except String AnalysisResp) (fuel : ℕ)
    (s : HomeState) : FullRun :=
  if sumWeights w ≠ 100 then
    { finalState := s, alerted := true, submission := none,
      navCall := none, loggedFinal := none, err := none }
  else
    let s1 : HomeState := { s with uploading := true }
    match promiseAll (slotKeys.map (fun k => slotResult (env k))) with
    | .error e =>
      { finalState := s1, alerted := false, submission := none,
        navCall := none, loggedFinal := none, err := some e }
    | .ok results =>
      let s2 : HomeState := { s1 with uploading := false, showAnalyzing := true }
      let payload : SubmissionPayload :=
        { storage_paths := (results.filterMap id).filter (fun p => p != ""),
          weighting_config :=
            { profile_name := preset, weights := normalizedWeights w } }
      match pollRun responses 5000 0 fuel with
      | some (.ok r, _) =>
        { finalState := s2, alerted := false, submission := some payload,
          navCall := some { route := "/dashboard", state := none },
          loggedFinal := some r, err := none }
      | some (.error e, _) =>
        { finalState := s2, alerted := false, submission := some payload,
          navCall := none, loggedFinal := none, err := some e }
      | none =>
        { finalState := s2, alerted := false, submission := some payload,
          navCall := none, loggedFinal := none, err := none }

/-- The dashboard screen's initialization
(src/Frontend/src/screens/dashboard/dashboard.jsx, lines 18-25):
`const { finalAnalysis, analysisId } = location.state || {};` followed by a
destructuring of `finalAnalysis` itself, which throws a TypeError when the
navigation carried no state (then `finalAnalysis` is `undefined`). -/
def dashboardInit : Option (AnalysisResp × String) → Except String (AnalysisResp × String)
  | some st => .ok st
  | none => .error "TypeError: cannot destructure property of undefined"

/-! ### Progress presentation (ProgressTracker, src/unnamed/part_001) -/

/-- One entry of `processingSteps`
(src/Frontend/src/screens/homePage/constants.js, lines 67-98): id and label
(icons and descriptions are view-only strings, omitted). -/
structure ProcStep where
  id : String
  label : String
  deriving DecidableEq

/-- The five pipeline stages of `processingSteps`
(src/Frontend/src/screens/homePage/constants.js, lines 67-98). -/
def processingSteps : List ProcStep :=
  [{ id := "upload", label := "Processing Documents" },
   { id := "ai", label := "AI Analysis" },
   { id := "metrics", label := "Extracting Key Metrics" },
   { id := "risks", label := "Generating Risk Analysis" },
   { id := "complete", label := "Finalizing Report" }]

/-- The derived current-step index of ProgressTracker
(src/unnamed/part_001, lines 140-143):
`Math.min(Math.floor(progress / (100 / processingSteps.length)), processingSteps.length - 1)`. -/
def stepIndex (progress : ℚ) : ℤ :=
  min ⌊progress / (100 / (processingSteps.length : ℚ))⌋
    ((processingSteps.length : ℤ) - 1)

/-- The spec's formula for the current-step index, stated verbatim for `N`
pipeline stages: `min(floor(p / (100/N)), N-1)`. -/
def specStepIndex (p : ℚ) (N : ℕ) : ℤ :=
  min ⌊p / (100 / (N : ℚ))⌋ ((N : ℤ) - 1)

/-- The animation duration chosen in ProgressTracker
(src/unnamed/part_001, line 119): 2000 ms when the target is 100, else
10000 ms. -/
def animDuration (endV : ℚ) : ℚ :=
  if endV = 100 then 2000 else 10000

/-- The interpolated displayed value of the `animate` callback
(src/unnamed/part_001, lines 123-127):
`value = start + (end - start) * min(elapsed / duration, 1)`. -/
def animValue (start endV elapsed : ℚ) : ℚ :=
  start + (endV - start) * min (elapsed / animDuration endV) 1

/-- Consecutive deduplication of the polled value sequence: the animation
effect has dependency array `[apiProgress]`, so it re-runs only when the
polled value changes. -/
def dedupConsec : List ℚ → List ℚ
  | [] => []
  | [x] => [x]
  | x :: y :: rest =>
    if x = y then dedupConsec (y :: rest) else x :: dedupConsec (y :: rest)

/-- One animation loop spawned by an effect run of ProgressTracker
(src/unnamed/part_001, lines 114-137): `start` is frozen to the displayed
value at effect time, `end` to the new target, `startTime` to `Date.now()`.
The effect has no cleanup, so a superseded loop is never cancelled: it keeps
re-registering itself via `requestAnimationFrame` until its own
`t = min(elapsed/duration, 1)` reaches 1. -/
structure AnimLoop where
  startVal : ℚ
  target : ℚ
  startTime : ℚ

/-- The time of a loop's final write: its first frame at or past
`startTime + duration`, where `t` clamps to 1, it writes exactly its target
and stops re-registering. -/
def loopFinish (l : AnimLoop) : ℚ :=
  l.startTime + animDuration l.target

/-- The value a live loop writes at time `τ`:
`start + (end - start) * min((τ - startTime)/duration, 1)`. -/
def loopValue (l : AnimLoop) (τ : ℚ) : ℚ :=
  animValue l.startVal l.target (τ - l.startTime)

/-- The displayed value at time `τ` while at least one loop is writing, for
loops listed in creation order.  Every loop with
`startTime ≤ τ ≤ loopFinish` writes once per frame; callbacks run in
registration order, and a younger loop first registered later, so within a
frame the youngest live loop's `setProgress` lands last and wins.  `none`
when no loop is writing at `τ`. -/
def activeValue : List AnimLoop → ℚ → Option ℚ
  | [], _ => none
  | l :: rest, τ =>
    match activeValue rest τ with
    | some v => some v
    | none =>
      if l.startTime ≤ τ ∧ τ ≤ loopFinish l then some (loopValue l τ) else none

/-- The loop whose final write lands last (the latest `loopFinish`, younger
loop winning a tie): once every loop has finished, the displayed value is
this loop's target. -/
def lastWriter : List AnimLoop → Option AnimLoop
  | [] => none
  | l :: rest =>
    match lastWriter rest with
    | none => some l
    | some m => if loopFinish m < loopFinish l then some l else some m

/-- Spawning the animation loops for a sequence of (target, arrival time)
effect runs: each new loop's `start` is the displayed value at its arrival
(the `progress` state read by the effect), initially 0. -/
def buildLoops : List AnimLoop → List (ℚ × ℚ) → List AnimLoop
  | acc, [] => acc
  | acc, (t, τ) :: rest =>
    buildLoops
      (acc ++ [{ startVal := (activeValue acc τ).getD 0, target := t,
                 startTime := τ }]) rest

/-- The number of `onComplete` invocations: since no loop is ever cancelled,
every loop eventually reaches `t = 1`, and it then calls `onComplete`
exactly when its own target is 100 (src/unnamed/part_001, lines 129-133). -/
def completionFires (loops : List AnimLoop) : ℕ :=
  (loops.filter (fun l => l.target == 100)).length

/-- The loops spawned on the claim's scenario: polled values `[5, 5, 40, 100]`
at the 5000 ms poll interval (fetches at 0, 5000, 10000, 15000 ms; the
repeated 5 does not re-run the effect), i.e. effect runs (5, 0 ms),
(40, 10000 ms), (100, 15000 ms). -/
def scenarioLoops : List AnimLoop :=
  buildLoops [] [(5, 0), (40, 10000), (100, 15000)]

/-! ### HTTP client response interceptor (apiService.js) -/

/-- The error object axios hands to the rejection interceptor: it carries an
HTTP response exactly when one was received; `data` is `some` exactly when
the response body was truthy (usable). -/
structure AxiosError where
  response : Option (Option String)
  deriving DecidableEq

/-- A settled axios request before interception: a 2xx response (with its
materialized `response.data`), or an error. -/
inductive HttpOutcome
  | fulfilled (data : String)
  | rejected (error : AxiosError)
  deriving DecidableEq

/-- The response interceptor of
`src/Frontend/src/apiService/apiService.js` (lines 11-25): 2xx responses
resolve with `response.data`; errors resolve with `error.response.data` when
`error.response && error.response.data` is truthy, and reject otherwise. -/
def interceptResponse : HttpOutcome → Except AxiosError String
  | .fulfilled d => .ok d
  | .rejected e =>
    match e.response with
    | some (some d) => .ok d
    | some none => .error e
    | none => .error e

/-- Whether a usable HTTP response body was received: always for a 2xx
response, and for an error exactly when it carries a response with a truthy
body. -/
def hasUsableBody : HttpOutcome → Bool
  | .fulfilled _ => true
  | .rejected e =>
    match e.response with
    | some d => d.isSome
    | none => false

/-! ### Concrete sample inputs -/

/-- A weights mapping summing to 99 (one below the Default preset). -/
def wNinetyNine : Weights := fun f => match f with
  | .Growth => 24 | .Market => 20 | .Team => 20
  | .Product => 15 | .Financials => 10 | .Competition => 10

/-- All four slots empty. -/
def envEmpty : SlotKey → UploadOutcome := fun _ => .noFile

/-- Initial HomePage flag state. -/
def homeInit : HomeState := { uploading := false, showAnalyzing := false }

/-- One slot suffers a network error while another uploads successfully. -/
def envNetFail : SlotKey → UploadOutcome := fun k => match k with
  | .pitch_deck => .netError "network failure"
  | .call_transcript => .putOk "docs/transcript.pdf"
  | _ => .noFile

/-- Two slots upload successfully, two are empty. -/
def envTwoOk : SlotKey → UploadOutcome := fun k => match k with
  | .pitch_deck => .putOk "docs/deck.pdf"
  | .call_transcript => .putOk "docs/transcript.pdf"
  | _ => .noFile

/-- One slot's PUT returns a non-success status, another succeeds. -/
def envOneFail : SlotKey → UploadOutcome := fun k => match k with
  | .pitch_deck => .putFail
  | .call_transcript => .putOk "docs/transcript.pdf"
  | _ => .noFile

/-- A poll-response sequence: one pending fetch, then completion. -/
def pollDemo : ℕ → Except String AnalysisResp := fun n =>
  if n = 0 then .ok { progress := 37, payload := "pending" }
  else .ok { progress := 100, payload := "full result" }

/-- A poll-response sequence that completes on the first fetch. -/
def pollDone : ℕ → Except String AnalysisResp := fun _ =>
  .ok { progress := 100, payload := "full result" }

end VentureVal

namespace VentureVal

/-! ### Claim C8: preset application is idempotent and lossless -/

/-- Claim C8: `applyPreset` always sets the weight state to the fixed mapping
stored for the chosen preset name, so re-selecting a preset after switching
away (and after arbitrary intervening edits, i.e. from any state) restores
its exact weight values; application is idempotent and lossless. -/
theorem applyPreset_roundtrip :
    (∀ (s : WeightState) (p : PresetName),
      applyPreset s p = { preset := p, weights := PRESETS p })
    ∧ (∀ (s : WeightState) (p q : PresetName),
      applyPreset (applyPreset (applyPreset s p) q) p = applyPreset s p)
    ∧ (∀ (s : WeightState) (p : PresetName),
      applyPreset (applyPreset s p) p = applyPreset s p)
    ∧ (∀ (s₁ s₂ : WeightState) (p : PresetName),
      applyPreset s₁ p = applyPreset s₂ p) :=
  ⟨fun _ _ => rfl, fun _ _ _ => rfl, fun _ _ => rfl, fun _ _ _ => rfl⟩

/-! ### Claim C9: derived submit-disabled state -/

/-- Claim C9: `isDisabled` is true exactly when `uploading` is true or every
slot's file list is empty; equivalently submission is enabled exactly when
`uploading` is false and at least one slot is non-empty. -/
theorem isDisabled_iff (u : Bool) (f : SlotKey → ℕ) :
    (isDisabled u f = true ↔ (u = true ∨ ∀ k, f k = 0))
    ∧ (isDisabled u f = false ↔ (u = false ∧ ∃ k, f k ≠ 0)) :=
  by
  have hall : (slotKeys.all (fun k => f k == 0)) = true ↔ ∀ k, f k = 0 := by
    simp only [slotKeys, List.all_cons, List.all_nil, Bool.and_true,
      Bool.and_eq_true, beq_iff_eq]
    constructor
    · rintro ⟨h1, h2, h3, h4⟩ k
      cases k <;> assumption
    · intro h
      exact ⟨h _, h _, h _, h _⟩
  have h1 : isDisabled u f = true ↔ (u = true ∨ ∀ k, f k = 0) := by
    rw [isDisabled, Bool.or_eq_true, hall]
  refine ⟨h1, ?_⟩
  rw [Bool.eq_false_iff, ne_eq, h1, not_or, not_forall]
  simp [Bool.not_eq_true]

/-! ### Claim C6: derived current-step index -/

/-- Claim C6: for every displayed progress value `p` the derived current-step
index of ProgressTracker equals `min(floor(p / (100/N)), N-1)` with `N = 5`
pipeline stages; in particular `p = 42` gives index 2 and `p = 100` gives
index 4. -/
theorem stepIndex_spec :
    (∀ p : ℚ, stepIndex p = specStepIndex p 5)
    ∧ stepIndex 42 = 2 ∧ stepIndex 100 = 4 := by
  refine ⟨fun p => rfl, ?_, ?_⟩ <;>
    norm_num [stepIndex, processingSteps]

/-! ### Claim C10: response interceptor resolution policy -/

/-- Claim C10: a request settled through the configured API clients rejects
exactly when no usable HTTP response body was received; a 2xx response
resolves with `response.data` and a non-2xx response carrying a (truthy)
body resolves with that body, so backend-reported error statuses never
surface as rejections. -/
theorem intercept_reject_iff :
    (∀ o : HttpOutcome,
      (∃ e, interceptResponse o = .error e) ↔ hasUsableBody o = false)
    ∧ (∀ d, interceptResponse (.fulfilled d) = .ok d)
    ∧ (∀ (err : AxiosError) (body : String),
        err.response = some (some body) →
        interceptResponse (.rejected err) = .ok body) := by
  refine ⟨?_, fun d => rfl, ?_⟩
  · intro o
    match o with
    | .fulfilled d => simp [interceptResponse, hasUsableBody]
    | .rejected ⟨none⟩ => simp [interceptResponse, hasUsableBody]
    | .rejected ⟨some none⟩ => simp [interceptResponse, hasUsableBody]
    | .rejected ⟨some (some d)⟩ => simp [interceptResponse, hasUsableBody]
  · rintro ⟨_⟩ body h
    cases h
    rfl

/-- Witness for C10: a 404 whose body is "oops" resolves with "oops". -/
theorem intercept_reject_iff_witness :
    interceptResponse (.rejected { response := some (some "oops") }) = .ok "oops" :=
  intercept_reject_iff.2.2 { response := some (some "oops") } "oops" rfl

/-! ### Claim C1: weights-sum validation gate -/

/-- Claim C1: `handleUpload` proceeds past validation if and only if the six
factor weights sum to exactly 100; otherwise it alerts and returns with no
side effects: no presign call is issued, no submission is made, no error
escapes, and the `uploading` / `showAnalyzing` flags are unchanged. -/
theorem handleUpload_weights_gate (w : Weights) (preset : PresetName)
    (env : SlotKey → UploadOutcome) (s : HomeState) :
    ((handleUpload w preset env s).alerted = false ↔ sumWeights w = 100)
    ∧ (sumWeights w ≠ 100 →
      handleUpload w preset env s =
        { finalState := s, alerted := true, presignCalls := [],
          submission := none, err := none }) := by
  by_cases h : sumWeights w = 100
  · refine ⟨?_, fun hn => absurd h hn⟩
    cases hp : promiseAll (slotKeys.map (fun k => slotResult (env k))) <;>
      simp [handleUpload, h, hp]
  · refine ⟨?_, fun _ => by simp [handleUpload, h]⟩
    simp [handleUpload, h]

/-- Witness for C1: with weights summing to 99 the submit operation blocks
with an alert and leaves the state untouched. -/
theorem handleUpload_weights_gate_witness :
    handleUpload wNinetyNine .defaultCustom envEmpty homeInit =
      { finalState := homeInit, alerted := true, presignCalls := [],
        submission := none, err := none } :=
  (handleUpload_weights_gate wNinetyNine .defaultCustom envEmpty homeInit).2
    (by decide)

/-! ### Upload-join helper lemmas -/

/-- Unfolding `promiseAll` over a fulfilled head. -/
lemma promiseAll_cons_ok {ε α : Type} (a : α) (l : List (Except ε α)) :
    promiseAll (Except.ok a :: l) =
      match promiseAll l with
      | .ok as => .ok (a :: as)
      | .error e => .error e := rfl

/-- Unfolding `promiseAll` over a rejected head. -/
lemma promiseAll_cons_err {ε α : Type} (e : ε) (l : List (Except ε α)) :
    promiseAll (Except.error e :: l) = Except.error e := rfl

lemma slotResult_noFile : slotResult .noFile = .ok none := rfl

lemma slotResult_putOk (p : String) : slotResult (.putOk p) = .ok (some p) := rfl

lemma slotResult_putFail : slotResult .putFail = .ok none := rfl

lemma slotResult_netError (e : String) : slotResult (.netError e) = .error e := rfl

lemma okPart_noFile : okPart .noFile = none := rfl

lemma okPart_putOk (p : String) : okPart (.putOk p) = some p := rfl

lemma okPart_putFail : okPart .putFail = none := rfl

lemma okPart_netError (e : String) : okPart (.netError e) = none := rfl

lemma isSuccess_noFile : isSuccess .noFile = false := rfl

lemma isSuccess_putOk (p : String) : isSuccess (.putOk p) = true := rfl

lemma isSuccess_putFail : isSuccess .putFail = false := rfl

lemma isSuccess_netError (e : String) : isSuccess (.netError e) = false := rfl

/-- When no slot rejects, the `Promise.all` join fulfils with each slot's
storage path or `null`. -/
lemma promiseAll_map_ok (env : SlotKey → UploadOutcome) :
    ∀ l : List SlotKey, (∀ k ∈ l, isNetError (env k) = false) →
    promiseAll (l.map fun k => slotResult (env k)) =
      .ok (l.map fun k => okPart (env k)) := by
  intro l
  induction l with
  | nil => intro _; rfl
  | cons x xs ih =>
    intro h
    have hx := h x (List.mem_cons_self x xs)
    have hxs := ih fun k hk => h k (List.mem_cons_of_mem x hk)
    cases hex : env x with
    | noFile =>
      simp only [List.map_cons]
      rw [hex]
      simp only [slotResult_noFile, okPart_noFile, promiseAll_cons_ok, hxs]
    | putOk p =>
      simp only [List.map_cons]
      rw [hex]
      simp only [slotResult_putOk, okPart_putOk, promiseAll_cons_ok, hxs]
    | putFail =>
      simp only [List.map_cons]
      rw [hex]
      simp only [slotResult_putFail, okPart_putFail, promiseAll_cons_ok, hxs]
    | netError e => rw [hex] at hx; simp [isNetError] at hx

/-- When some slot rejects, the `Promise.all` join rejects. -/
lemma promiseAll_map_err (env : SlotKey → UploadOutcome) :
    ∀ l : List SlotKey, (∃ k ∈ l, isNetError (env k) = true) →
    ∃ e, promiseAll (l.map fun k => slotResult (env k)) = .error e := by
  intro l
  induction l with
  | nil => rintro ⟨k, hk, _⟩; cases hk
  | cons x xs ih =>
    rintro ⟨k, hk, hnet⟩
    cases hex : env x with
    | netError e =>
      exact ⟨e, by
        simp only [List.map_cons]
        rw [hex]
        simp only [slotResult_netError, promiseAll_cons_err]⟩
    | noFile =>
      have hk' : k ∈ xs := by
        rcases List.mem_cons.mp hk with rfl | h
        · rw [hex] at hnet; simp [isNetError] at hnet
        · exact h
      obtain ⟨e, he⟩ := ih ⟨k, hk', hnet⟩
      exact ⟨e, by
        simp only [List.map_cons]
        rw [hex]
        simp only [slotResult_noFile, promiseAll_cons_ok, he]⟩
    | putOk p =>
      have hk' : k ∈ xs := by
        rcases List.mem_cons.mp hk with rfl | h
        · rw [hex] at hnet; simp [isNetError] at hnet
        · exact h
      obtain ⟨e, he⟩ := ih ⟨k, hk', hnet⟩
      exact ⟨e, by
        simp only [List.map_cons]
        rw [hex]
        simp only [slotResult_putOk, promiseAll_cons_ok, he]⟩
    | putFail =>
      have hk' : k ∈ xs := by
        rcases List.mem_cons.mp hk with rfl | h
        · rw [hex] at hnet; simp [isNetError] at hnet
        · exact h
      obtain ⟨e, he⟩ := ih ⟨k, hk', hnet⟩
      exact ⟨e, by
        simp only [List.map_cons]
        rw [hex]
        simp only [slotResult_putFail, promiseAll_cons_ok, he]⟩

/-- Filtering the truthy entries of the per-slot results yields exactly the
successful slots' paths, provided those paths are non-empty strings. -/
lemma filter_paths (env : SlotKey → UploadOutcome) :
    ∀ l : List SlotKey, (∀ k ∈ l, okPathNonempty (env k) = true) →
    ((l.map fun k => okPart (env k)).filterMap id).filter (fun p => p != "") =
      l.filterMap fun k => okPart (env k) := by
  intro l
  induction l with
  | nil => intro _; rfl
  | cons x xs ih =>
    intro h
    have hx := h x (List.mem_cons_self x xs)
    have hxs := ih fun k hk => h k (List.mem_cons_of_mem x hk)
    cases hex : env x with
    | noFile =>
      simp only [List.map_cons, List.filterMap_cons]
      rw [hex]
      simp only [okPart_noFile, id_eq, hxs]
    | putOk p =>
      rw [hex] at hx
      simp only [okPathNonempty] at hx
      simp only [List.map_cons, List.filterMap_cons]
      rw [hex]
      simp only [okPart_putOk, id_eq, List.filter_cons, hx, if_true, hxs]
    | putFail =>
      simp only [List.map_cons, List.filterMap_cons]
      rw [hex]
      simp only [okPart_putFail, id_eq, hxs]
    | netError e =>
      simp only [List.map_cons, List.filterMap_cons]
      rw [hex]
      simp only [okPart_netError, id_eq, hxs]

/-- The successful-path list has one entry per successful slot. -/
lemma length_paths (env : SlotKey → UploadOutcome) :
    ∀ l : List SlotKey,
    (l.filterMap fun k => okPart (env k)).length =
      (l.filter fun k => isSuccess (env k)).length := by
  intro l
  induction l with
  | nil => rfl
  | cons x xs ih =>
    cases hex : env x with
    | noFile =>
      simp only [List.filterMap_cons, List.filter_cons]
      rw [hex]
      simp only [okPart_noFile, isSuccess_noFile, ih, Bool.false_eq_true, if_false]
    | putOk p =>
      simp only [List.filterMap_cons, List.filter_cons]
      rw [hex]
      simp only [okPart_putOk, isSuccess_putOk, if_true, List.length_cons, ih]
    | putFail =>
      simp only [List.filterMap_cons, List.filter_cons]
      rw [hex]
      simp only [okPart_putFail, isSuccess_putFail, ih, Bool.false_eq_true, if_false]
    | netError e =>
      simp only [List.filterMap_cons, List.filter_cons]
      rw [hex]
      simp only [okPart_netError, isSuccess_netError, ih, Bool.false_eq_true, if_false]

/-- Shape of a fully successful `handleUpload` run: when the weights sum to
100, no slot rejects and all successful paths are non-empty, the handler
clears `uploading`, sets `showAnalyzing` and submits exactly the successful
slots' paths with the normalized weighting configuration. -/
lemma handleUpload_ok (w : Weights) (preset : PresetName)
    (env : SlotKey → UploadOutcome) (s : HomeState)
    (hsum : sumWeights w = 100)
    (hnet : ∀ k, isNetError (env k) = false)
    (hne : ∀ k, okPathNonempty (env k) = true) :
    handleUpload w preset env s =
      { finalState := { uploading := false, showAnalyzing := true },
        alerted := false,
        presignCalls := slotKeys.filter (fun k =>
          match env k with | .noFile => false | _ => true),
        submission := some
          { storage_paths := successPaths env,
            weighting_config :=
              { profile_name := preset, weights := normalizedWeights w } },
        err := none } := by
  have hp := promiseAll_map_ok env slotKeys fun k _ => hnet k
  have hf := filter_paths env slotKeys fun k _ => hne k
  rw [handleUpload, if_neg (fun hc => hc hsum), hp]
  simp only [successPaths, hf]

/-! ### Claim C2: per-slot settlement vs the `Promise.all` join -/

/-- Counterexample for C2 as stated: with valid weights, a network error in
the pitch-deck slot and a successful transcript upload, no submission is
made at all — the successful slot's path is not submitted, because the
`Promise.all` join rejects and the rejection aborts the whole handler. -/
theorem promiseAll_abort_counterexample :
    sumWeights (PRESETS .defaultCustom) = 100
    ∧ envNetFail .call_transcript = .putOk "docs/transcript.pdf"
    ∧ ¬∃ payload,
        (handleUpload (PRESETS .defaultCustom) .defaultCustom envNetFail
          homeInit).submission = some payload
        ∧ "docs/transcript.pdf" ∈ payload.storage_paths := by
  refine ⟨by decide, rfl, ?_⟩
  rintro ⟨payload, hsub, _⟩
  have hnone : (handleUpload (PRESETS .defaultCustom) .defaultCustom envNetFail
      homeInit).submission = none := rfl
  rw [hnone] at hsub
  cases hsub

/-- Claim C2 (amended): a slot whose PUT returns a non-success status settles
to `null` without affecting the other slots, and the submitted
`storage_paths` are exactly the successful slots' paths; but a network error
(a rejected presign or PUT promise) in any slot rejects the `Promise.all`
join, so no submission happens at all and `uploading` is left stuck true. -/
theorem handleUpload_settle_behavior (w : Weights) (preset : PresetName)
    (env : SlotKey → UploadOutcome) (s : HomeState)
    (hsum : sumWeights w = 100) :
    ((∀ k, isNetError (env k) = false) → (∀ k, okPathNonempty (env k) = true) →
      ∃ payload,
        (handleUpload w preset env s).submission = some payload
        ∧ payload.storage_paths = successPaths env
        ∧ (handleUpload w preset env s).err = none)
    ∧ ((∃ k, isNetError (env k) = true) →
      (handleUpload w preset env s).submission = none
      ∧ (∃ e, (handleUpload w preset env s).err = some e)
      ∧ (handleUpload w preset env s).finalState.uploading = true) := by
  constructor
  · intro hnet hne
    rw [handleUpload_ok w preset env s hsum hnet hne]
    exact ⟨_, rfl, rfl, rfl⟩
  · rintro ⟨k, hk⟩
    obtain ⟨e, he⟩ := promiseAll_map_err env slotKeys ⟨k, by cases k <;> simp [slotKeys], hk⟩
    refine ⟨?_, ⟨e, ?_⟩, ?_⟩ <;> simp [handleUpload, hsum, he]

/-- Witness for C2 (amended): a non-success PUT status in the pitch-deck
slot does not prevent submission; the transcript path alone is submitted. -/
theorem handleUpload_settle_behavior_witness :
    (∃ payload,
        (handleUpload (PRESETS .defaultCustom) .defaultCustom envOneFail
          homeInit).submission = some payload
        ∧ payload.storage_paths = successPaths envOneFail
        ∧ (handleUpload (PRESETS .defaultCustom) .defaultCustom envOneFail
            homeInit).err = none)
    ∧ successPaths envOneFail = ["docs/transcript.pdf"] :=
  ⟨(handleUpload_settle_behavior (PRESETS .defaultCustom) .defaultCustom
      envOneFail homeInit (by decide)).1 (by decide) (by decide),
    by decide⟩

/-! ### Polling-loop helper lemmas -/

/-- One iteration whose fetch rejects: the error is rethrown. -/
lemma pollRun_succ_err (responses : ℕ → Except String AnalysisResp)
    (interval k fuel : ℕ) {e : String} (h : responses k = .error e) :
    pollRun responses interval k (fuel + 1) = some (.error e, interval * k) := by
  simp [pollRun, h]

/-- One iteration whose fetch reports progress 100: the full response is
returned. -/
lemma pollRun_succ_done (responses : ℕ → Except String AnalysisResp)
    (interval k fuel : ℕ) {r : AnalysisResp} (h : responses k = .ok r)
    (hp : r.progress = 100) :
    pollRun responses interval k (fuel + 1) = some (.ok r, interval * k) := by
  simp [pollRun, h, hp]

/-- One iteration whose fetch reports progress below 100: the loop sleeps and
fetches again. -/
lemma pollRun_succ_pending (responses : ℕ → Except String AnalysisResp)
    (interval k fuel : ℕ) {r : AnalysisResp} (h : responses k = .ok r)
    (hp : r.progress ≠ 100) :
    pollRun responses interval k (fuel + 1) =
      pollRun responses interval (k + 1) fuel := by
  simp [pollRun, h, hp]

/-- Skipping over a prefix of pending (progress below 100) fetches. -/
lemma pollRun_shift (responses : ℕ → Except String AnalysisResp)
    (interval : ℕ) :
    ∀ (n k fuel : ℕ),
    (∀ m, m < n → ∃ r, responses (k + m) = .ok r ∧ r.progress ≠ 100) →
    pollRun responses interval k (n + fuel) =
      pollRun responses interval (k + n) fuel := by
  intro n
  induction n with
  | zero => intro k fuel _; simp
  | succ n ih =>
    intro k fuel h
    obtain ⟨r, hr0, hp⟩ := h 0 (by omega)
    rw [Nat.add_zero] at hr0
    rw [show n + 1 + fuel = n + fuel + 1 from by omega,
      pollRun_succ_pending responses interval k (n + fuel) hr0 hp]
    have h' : ∀ m, m < n → ∃ r, responses (k + 1 + m) = .ok r ∧ r.progress ≠ 100 := by
      intro m hm
      have hh := h (m + 1) (by omega)
      rwa [show k + (m + 1) = k + 1 + m from by omega] at hh
    rw [show n + fuel = n + fuel from rfl, ih (k + 1) fuel h',
      show k + 1 + n = k + (n + 1) from by omega]

/-- If every fetch stays pending the loop never terminates, whatever the
fuel. -/
lemma pollRun_pending_none (responses : ℕ → Except String AnalysisResp)
    (interval : ℕ)
    (h : ∀ m, ∃ r, responses m = .ok r ∧ r.progress ≠ 100) :
    ∀ fuel k, pollRun responses interval k fuel = none := by
  intro fuel
  induction fuel with
  | zero => intro k; rfl
  | succ fuel ih =>
    intro k
    obtain ⟨r, hr, hp⟩ := h k
    rw [pollRun_succ_pending responses interval k fuel hr hp, ih]

/-! ### Claim C3: polling loop termination and return value -/

/-- Claim C3: `pollAnalysisStatus` (with its fixed 5000 ms interval) returns
the full response exactly when a fetched response has progress 100: if the
first `n` fetches are pending and fetch `n` reports progress 100, the loop
returns that full response having slept 5000 ms per pending fetch; if fetch
`n` rejects, the error propagates to the caller; and if every fetch stays
pending the loop never terminates, for any iteration bound. -/
theorem pollAnalysisStatus_spec (responses : ℕ → Except String AnalysisResp) :
    (∀ (n : ℕ) (r : AnalysisResp) (fuel : ℕ),
      (∀ m, m < n → ∃ r', responses m = .ok r' ∧ r'.progress ≠ 100) →
      responses n = .ok r → r.progress = 100 → n < fuel →
      pollRun responses 5000 0 fuel = some (.ok r, 5000 * n))
    ∧ (∀ (n : ℕ) (e : String) (fuel : ℕ),
      (∀ m, m < n → ∃ r', responses m = .ok r' ∧ r'.progress ≠ 100) →
      responses n = .error e → n < fuel →
      pollRun responses 5000 0 fuel = some (.error e, 5000 * n))
    ∧ ((∀ m, ∃ r', responses m = .ok r' ∧ r'.progress ≠ 100) →
      ∀ fuel, pollRun responses 5000 0 fuel = none) := by
  refine ⟨?_, ?_, ?_⟩
  · intro n r fuel hpre hn hp hf
    rw [show fuel = n + (fuel - n - 1 + 1) from by omega,
      pollRun_shift responses 5000 n 0 (fuel - n - 1 + 1)
        (fun m hm => by simpa using hpre m hm),
      Nat.zero_add,
      pollRun_succ_done responses 5000 n (fuel - n - 1) hn hp]
  · intro n e fuel hpre hn hf
    rw [show fuel = n + (fuel - n - 1 + 1) from by omega,
      pollRun_shift responses 5000 n 0 (fuel - n - 1 + 1)
        (fun m hm => by simpa using hpre m hm),
      Nat.zero_add,
      pollRun_succ_err responses 5000 n (fuel - n - 1) hn]
  · intro h fuel
    exact pollRun_pending_none responses 5000 h fuel 0

/-- Witness for C3: with one pending fetch followed by a completed one, the
loop returns the full payload after a single 5000 ms sleep. -/
theorem pollAnalysisStatus_spec_witness :
    pollRun pollDemo 5000 0 2 =
      some (.ok { progress := 100, payload := "full result" }, 5000 * 1) :=
  (pollAnalysisStatus_spec pollDemo).1 1
    { progress := 100, payload := "full result" } 2
    (fun m hm => by
      have hm0 : m = 0 := by omega
      subst hm0
      exact ⟨{ progress := 37, payload := "pending" }, rfl, by decide⟩)
    rfl rfl (by omega)

/-! ### Claim C4: hand-off to the dashboard on completion -/

/-- Claim C4 records a divergence between the code and its own consumer: on
terminal completion the orchestrator calls `navigate("/dashboard")` with no
navigation state, so neither the result payload nor the job id is handed to
the next screen (the result is only logged to the console) — yet the
dashboard screen's own initialization destructures exactly that navigation
state and throws when it is absent.  Evaluated here on a run that uploads
two documents and completes on the first poll. -/
theorem navigate_no_payload_bug :
    (handleUploadFull (PRESETS .defaultCustom) .defaultCustom envTwoOk
      pollDone 1 homeInit).navCall =
        some { route := "/dashboard", state := none }
    ∧ (handleUploadFull (PRESETS .defaultCustom) .defaultCustom envTwoOk
        pollDone 1 homeInit).loggedFinal =
          some { progress := 100, payload := "full result" }
    ∧ (¬∃ (r : AnalysisResp) (id' : String),
        (handleUploadFull (PRESETS .defaultCustom) .defaultCustom envTwoOk
          pollDone 1 homeInit).navCall =
            some { route := "/dashboard", state := some (r, id') })
    ∧ dashboardInit none =
        .error "TypeError: cannot destructure property of undefined" := by
  refine ⟨rfl, rfl, ?_, rfl⟩
  rintro ⟨r, id', h⟩
  have hnav : (handleUploadFull (PRESETS .defaultCustom) .defaultCustom
      envTwoOk pollDone 1 homeInit).navCall =
        some { route := "/dashboard", state := none } := rfl
  rw [hnav] at h
  simp at h

/-! ### Claim C5: submission payload shape -/

/-- Claim C5: whenever the weights sum to 100 (and the uploads settle without
a network error, with non-empty storage paths), the submitted payload's
`weighting_config.weights` maps each factor to its integer weight divided by
100 — so the fractions sum to exactly 1 — its `profile_name` is the selected
preset, and `storage_paths` has exactly one entry per successfully uploaded
non-empty slot. -/
theorem submission_payload_spec (w : Weights) (preset : PresetName)
    (env : SlotKey → UploadOutcome) (s : HomeState)
    (hsum : sumWeights w = 100)
    (hnet : ∀ k, isNetError (env k) = false)
    (hne : ∀ k, okPathNonempty (env k) = true) :
    ∃ payload,
      (handleUpload w preset env s).submission = some payload
      ∧ payload.weighting_config.profile_name = preset
      ∧ (∀ f, payload.weighting_config.weights f = (w f : ℚ) / 100)
      ∧ (factorList.map payload.weighting_config.weights).sum = 1
      ∧ payload.storage_paths.length =
          (slotKeys.filter fun k => isSuccess (env k)).length := by
  rw [handleUpload_ok w preset env s hsum hnet hne]
  refine ⟨_, rfl, rfl, fun f => rfl, ?_, ?_⟩
  · have h1 : w .Growth + w .Market + w .Team + w .Product
        + w .Financials + w .Competition = 100 := by
      have h0 := hsum
      simp only [sumWeights, factorList, List.map_cons, List.map_nil,
        List.sum_cons, List.sum_nil, add_zero] at h0
      omega
    have hq : ((w .Growth : ℚ) + w .Market + w .Team + w .Product
        + w .Financials + w .Competition) = 100 := by
      exact_mod_cast h1
    simp only [factorList, List.map_cons, List.map_nil, List.sum_cons,
      List.sum_nil, add_zero, normalizedWeights]
    linarith
  · simp only [successPaths]
    exact length_paths env slotKeys

/-- Witness for C5: uploading 2 of the 4 slots with the Default preset's
weights yields a payload with exactly 2 storage paths and unit-sum
fractional weights. -/
theorem submission_payload_spec_witness :
    (∃ payload,
      (handleUpload (PRESETS .defaultCustom) .defaultCustom envTwoOk
        homeInit).submission = some payload
      ∧ payload.weighting_config.profile_name = .defaultCustom
      ∧ (∀ f, payload.weighting_config.weights f =
          ((PRESETS .defaultCustom) f : ℚ) / 100)
      ∧ (factorList.map payload.weighting_config.weights).sum = 1
      ∧ payload.storage_paths.length =
          (slotKeys.filter fun k => isSuccess (envTwoOk k)).length)
    ∧ (slotKeys.filter fun k => isSuccess (envTwoOk k)).length = 2 :=
  ⟨submission_payload_spec (PRESETS .defaultCustom) .defaultCustom envTwoOk
      homeInit (by decide) (by decide) (by decide),
    by decide⟩

/-! ### Claim C7: progress animation -/

/-- The three loops spawned on the scenario, with their frozen start values:
the 40-target loop starts from 5 (the finished first loop's value) and the
100-target loop starts from 22.5 (the 40-target loop's value at 15000 ms). -/
lemma scenarioLoops_eq :
    scenarioLoops =
      [{ startVal := 0, target := 5, startTime := 0 },
       { startVal := 5, target := 40, startTime := 10000 },
       { startVal := 45/2, target := 100, startTime := 15000 }] := by
  norm_num [scenarioLoops, buildLoops, activeValue, loopFinish, loopValue,
    animValue, animDuration, min_def, Option.getD]

/-- At 17000 ms the 100-target loop performs its final write: exactly 100. -/
lemma activeValue_scenario_17000 :
    activeValue scenarioLoops 17000 = some 100 := by
  rw [scenarioLoops_eq]
  norm_num [activeValue, loopFinish, loopValue, animValue, animDuration,
    min_def]

/-- At 20000 ms only the stale 40-target loop still writes: it writes 40. -/
lemma activeValue_scenario_20000 :
    activeValue scenarioLoops 20000 = some 40 := by
  rw [scenarioLoops_eq]
  norm_num [activeValue, loopFinish, loopValue, animValue, animDuration,
    min_def]

/-- The loop finishing last is the stale 40-target loop (20000 ms versus
17000 ms for the 100-target loop), so the displayed value ends at 40. -/
lemma lastWriter_scenario :
    (lastWriter scenarioLoops).map AnimLoop.target = some 40 := by
  rw [scenarioLoops_eq]
  norm_num [lastWriter, loopFinish, animDuration]

/-- Exactly one spawned loop has target 100, so `onComplete` fires once. -/
lemma completionFires_scenario : completionFires scenarioLoops = 1 := by
  rw [scenarioLoops_eq]
  have h1 : ((5:ℚ) == 100) = false := by norm_num [beq_eq_false_iff_ne]
  have h2 : ((40:ℚ) == 100) = false := by norm_num [beq_eq_false_iff_ne]
  have h3 : ((100:ℚ) == 100) = true := by norm_num [beq_iff_eq]
  norm_num [completionFires, List.filter, h1, h2, h3]

/-- Counterexample for C7 as stated, on the claim's own polled sequence
`[5, 5, 40, 100]` at the 5000 ms poll spacing: the effect never cancels a
superseded animation loop, so the stale 40-target loop (10000 ms, alive
until 20000 ms) outlives the 100-target loop (2000 ms, done at 17000 ms).
The displayed value reaches 100 at 17000 ms but then the stale loop's
writes win again: at 20000 ms the displayed value is 40, the last writer
overall is the 40-target loop, and the displayed value does not
monotonically approach and hold the final target of 100. -/
theorem stale_loop_counterexample :
    activeValue scenarioLoops 17000 = some 100
    ∧ activeValue scenarioLoops 20000 = some 40
    ∧ (lastWriter scenarioLoops).map AnimLoop.target = some 40
    ∧ ¬(∀ τ₁ τ₂ : ℚ, 15000 ≤ τ₁ → τ₁ ≤ τ₂ → τ₂ ≤ 20000 →
        (activeValue scenarioLoops τ₁).getD 0 ≤
          (activeValue scenarioLoops τ₂).getD 0) := by
  refine ⟨activeValue_scenario_17000, activeValue_scenario_20000,
    lastWriter_scenario, ?_⟩
  intro h
  have h3 := h 17000 20000 (by norm_num) (by norm_num) (by norm_num)
  rw [activeValue_scenario_17000, activeValue_scenario_20000] at h3
  norm_num at h3

/-- Claim C7 (amended): each animation loop individually interpolates the
displayed value by `value = start + (end - start) * min(elapsed/duration, 1)`
with duration 2000 ms when the target is 100 and 10000 ms otherwise — for
`start ≤ target` its value is nondecreasing in elapsed time, stays between
start and target (so a loop whose target is below 100 never writes 100), and
writes exactly 100 iff its target is 100 and its full 2000 ms elapse — and
the effect re-runs only when the polled value changes, so `[5, 5, 40, 100]`
spawns loops for targets `[5, 40, 100]` and `onComplete` fires exactly once
(by the single target-100 loop).  But a superseded loop is never cancelled:
at the 5000 ms poll spacing the stale 40-target loop outlives the 100-target
loop, so the displayed value reaches 100 when the target-100 animation
finishes and then falls back, ending at the stale loop's target of 40. -/
theorem progress_animation_amended :
    (∀ s t h₁ h₂ : ℚ, s ≤ t → 0 ≤ h₁ → h₁ ≤ h₂ →
      animValue s t h₁ ≤ animValue s t h₂)
    ∧ (∀ s t h : ℚ, s ≤ t → 0 ≤ h →
      s ≤ animValue s t h ∧ animValue s t h ≤ t)
    ∧ (∀ s t h : ℚ, s ≤ t → t < 100 → 0 ≤ h → animValue s t h < 100)
    ∧ (∀ s h : ℚ, s < 100 → 0 ≤ h → (animValue s 100 h = 100 ↔ 2000 ≤ h))
    ∧ dedupConsec [5, 5, 40, 100] = [5, 40, 100]
    ∧ completionFires scenarioLoops = 1
    ∧ activeValue scenarioLoops 17000 = some 100
    ∧ (lastWriter scenarioLoops).map AnimLoop.target = some 40 := by
  have hdur : ∀ t : ℚ, 0 < animDuration t := by
    intro t
    simp only [animDuration]
    split <;> norm_num
  have hd100 : animDuration (100 : ℚ) = 2000 := by
    simp only [animDuration]
    norm_num
  have hmono : ∀ s t h₁ h₂ : ℚ, s ≤ t → 0 ≤ h₁ → h₁ ≤ h₂ →
      animValue s t h₁ ≤ animValue s t h₂ := by
    intro s t h₁ h₂ hst _ h12
    simp only [animValue]
    have hd := hdur t
    have hmin : min (h₁ / animDuration t) 1 ≤ min (h₂ / animDuration t) 1 :=
      min_le_min ((div_le_div_iff_of_pos_right hd).mpr h12) le_rfl
    have hts : (0:ℚ) ≤ t - s := sub_nonneg.mpr hst
    exact add_le_add_left (mul_le_mul_of_nonneg_left hmin hts) s
  have hbounds : ∀ s t h : ℚ, s ≤ t → 0 ≤ h →
      s ≤ animValue s t h ∧ animValue s t h ≤ t := by
    intro s t h hst h0
    have hd := hdur t
    have hts : (0:ℚ) ≤ t - s := sub_nonneg.mpr hst
    have hm0 : (0:ℚ) ≤ min (h / animDuration t) 1 :=
      le_min (div_nonneg h0 hd.le) (by norm_num)
    have hm1 : min (h / animDuration t) 1 ≤ 1 := min_le_right _ _
    constructor
    · simp only [animValue]
      nlinarith
    · simp only [animValue]
      nlinarith
  have hfin : ∀ v h : ℚ, 2000 ≤ h → animValue v 100 h = 100 := by
    intro v h h3
    have hm : min (h / 2000) 1 = 1 := by
      refine min_eq_right ?_
      rw [le_div_iff₀ (by norm_num : (0:ℚ) < 2000)]
      linarith
    simp only [animValue, hd100, hm]
    ring
  refine ⟨hmono, hbounds, ?_, ?_, ?_, ?_, ?_, ?_⟩
  · intro s t h hst ht100 h0
    exact lt_of_le_of_lt (hbounds s t h hst h0).2 ht100
  · intro s h hs h0
    constructor
    · intro heq
      simp only [animValue, hd100] at heq
      set m := min (h / 2000) 1 with hm
      have h1 : (100 - s) * m = (100 - s) * 1 := by linarith
      have hs' : (100 : ℚ) - s ≠ 0 := by linarith
      have hm1 : m = 1 := mul_left_cancel₀ hs' h1
      have hmle : (1:ℚ) ≤ h / 2000 := by
        by_contra hlt
        push_neg at hlt
        have hmm : m = h / 2000 := min_eq_left hlt.le
        rw [hm1] at hmm
        linarith
      have h2 := (le_div_iff₀ (by norm_num : (0:ℚ) < 2000)).mp hmle
      linarith
    · intro h2000
      exact hfin s h h2000
  · decide
  · exact completionFires_scenario
  · exact activeValue_scenario_17000
  · exact lastWriter_scenario

/-- Witness for C7 (amended): a target-100 animation that runs its full
2000 ms writes exactly 100. -/
theorem progress_animation_amended_witness :
    animValue 0 100 2000 = 100 :=
  (progress_animation_amended.2.2.2.1 0 2000 (by decide) (by decide)).mpr
    (by decide)

end VentureVal
